import Mathlib

/-!
Shallow embedding of `server.js` from the hockey-seo-backend repository.

Pure JS helper functions become Lean functions on `String`, `ℤ`, `ℚ` and
lists.  `Math.random()` draws are threaded as explicit parameters in `[0,1)`.
The provider client's network effects are modelled by an explicit outcome
type (`HttpOutcome`); exceptions caught in JS become `Except`/`Option`
results.  The per-request orchestration of `POST /api/analyze` is a pure
function of the request, the credential flags, and the per-keyword provider
outcomes and random draws.
-/

namespace HockeySeo

/-- JS `String.prototype.includes`: `strContains s sub` is true iff `sub`
occurs in `s` as a contiguous substring (the empty string occurs in every
string). -/
def strContains (s sub : String) : Bool :=
  decide (sub.data <:+: s.data)

/-- JS `String.prototype.toLowerCase`, character by character. -/
def jsToLower (s : String) : String :=
  ⟨s.data.map Char.toLower⟩

/-- JS `String.prototype.split(sep)` for a one-character separator, on the
character list: splitting the empty string gives one empty word, and every
separator occurrence starts a new (possibly empty) word. -/
def jsSplitChars (sep : Char) (l : List Char) : List (List Char) :=
  match l with
  | [] => [[]]
  | c :: rest =>
    let r := jsSplitChars sep rest
    if c = sep then [] :: r
    else
      match r with
      | [] => [[c]]
      | w :: ws => (c :: w) :: ws

/-- JS `s.split(' ')`. -/
def jsSplitOnSpace (s : String) : List String :=
  (jsSplitChars ' ' s.data).map String.mk

/-- Function `isTeamSite` from server.js: a domain belongs to the team iff the
lowercased domain contains some word of the lowercased team name (split on
single spaces); a falsy (empty) domain never matches. -/
def isTeamSite (domain teamName : String) : Bool :=
  if domain = "" then false
  else
    let teamWords := jsSplitOnSpace (jsToLower teamName)
    let cleanDomain := jsToLower domain
    teamWords.any (fun word => strContains cleanDomain word)

/-- The resale-domain list used by `calculateOpportunityScore`. -/
def ticketResellers : List String :=
  ["ticketmaster.com", "stubhub.com", "seatgeek.com", "vividseats.com"]

/-- Function `calculateOpportunityScore` from server.js, translated statement by
statement: base 5, keyword bonuses, rank adjustment chain, reseller bonus,
then `Math.min(Math.max(score, 3), 10)`. -/
def calculateOpportunityScore (keyword : String) (teamRank : ℤ)
    (competitors : List String) : ℤ :=
  let score : ℤ := 5
  let score := if strContains keyword "first time" || strContains keyword "what to expect"
    then score + 3 else score
  let score := if strContains keyword "parking" then score + 2 else score
  let score := if strContains keyword "tickets" || strContains keyword "cheap"
    then score + 2 else score
  let score := if strContains keyword "seating" then score + 1 else score
  let score :=
    if teamRank = -1 then score + 3
    else if teamRank > 10 then score + 2
    else if teamRank > 5 then score + 1
    else if teamRank ≤ 3 then score - 1
    else score
  let hasTicketResellers :=
    competitors.any (fun comp => ticketResellers.any (fun r => strContains comp r))
  let score := if hasTicketResellers then score + 1 else score
  min (max score 3) 10

/-- Function `getGapType` from server.js: first-match-wins classification chain. -/
def getGapType (keyword : String) (competitors : List String) : String :=
  if strContains keyword "first time" || strContains keyword "what to expect" then
    "First-Timer Experience Gap"
  else if strContains keyword "parking" then
    "Arena Information Gap"
  else if competitors.any (fun comp =>
      comp = "ticketmaster.com" || comp = "stubhub.com" || comp = "seatgeek.com") then
    "Ticket Reseller Dominance"
  else if strContains keyword "seating" || strContains keyword "arena" then
    "Venue Experience Gap"
  else
    "General Content Gap"

/-- The (title, format, cta) triple returned by `getContentSuggestion`. -/
structure ContentSuggestion where
  title : String
  format : String
  cta : String
  deriving Repr, DecidableEq

/-- Function `getContentSuggestion` from server.js. -/
def getContentSuggestion (keyword : String) : ContentSuggestion :=
  if strContains keyword "first time" || strContains keyword "what to expect" then
    { title := "Complete First-Timer's Hockey Guide"
      format := "FAQ-style guide with arena tips and terminology"
      cta := "Buy Official Tickets" }
  else if strContains keyword "parking" then
    { title := "Ultimate Arena Parking Guide"
      format := "Interactive map with pricing and walking times"
      cta := "Reserve Parking & Tickets" }
  else if strContains keyword "seating" then
    { title := "Interactive Arena Seating Guide"
      format := "Visual seating chart with ice view photos"
      cta := "Find Your Perfect Seats" }
  else
    { title := "Comprehensive Fan Guide"
      format := "Detailed FAQ with local tips"
      cta := "Get Tickets" }

/-- Function `getLLMStrategy` from server.js. -/
def getLLMStrategy (keyword : String) : String :=
  if strContains keyword "first time" || strContains keyword "what to expect" then
    "Create conversational Q&A content optimized for voice search and AI assistants"
  else if strContains keyword "parking" || strContains keyword "seating" then
    "Use structured data and local context for location-based AI search"
  else
    "Optimize with natural language and hockey-specific terminology for AI search"

/-- Function `generateSimulatedSearchVolume` from server.js; `r` stands for the
`Math.random()` draw in `[0,1)`. -/
def generateSimulatedSearchVolume (keyword : String) (r : ℚ) : ℤ :=
  if strContains keyword "tickets" || strContains keyword "cheap" then
    ⌊r * 800⌋ + 200
  else if strContains keyword "first time" || strContains keyword "what to expect" then
    ⌊r * 400⌋ + 150
  else if strContains keyword "parking" then
    ⌊r * 300⌋ + 100
  else
    ⌊r * 200⌋ + 50

/-- Function `getSimulatedCompetitors` from server.js. -/
def getSimulatedCompetitors (keyword : String) : List String :=
  if strContains keyword "tickets" then
    ["stubhub.com", "ticketmaster.com", "seatgeek.com"]
  else if strContains keyword "parking" then
    ["spothero.com", "parkwhiz.com", "yelp.com"]
  else if strContains keyword "first time" then
    ["reddit.com", "tripadvisor.com", "hockeyforum.com"]
  else
    ["reddit.com", "yelp.com", "hockeydb.com"]

/-- The synthetic team rank expression of `createSimulatedAnalysis`:
`Math.random() > 0.6 ? -1 : Math.floor(Math.random() * 10) + 1`, with the
two independent draws `r1` and `r2` made explicit.  Polymorphic over the
ordered field so that the same definition is used both executably (on `ℚ`)
and in measure statements (on `ℝ`). -/
def simulatedTeamRank {α : Type} [LinearOrderedField α] [FloorRing α]
    (r1 r2 : α) : ℤ :=
  if (6 : α) / 10 < r1 then -1 else ⌊r2 * 10⌋ + 1

/-- One output record of the analysis pipeline (`analysis` object in
server.js).  Every field of the JS object is present. -/
structure Analysis where
  keyword : String
  opportunity : ℤ
  gapType : String
  teamRank : String
  competitors : List String
  contentSuggestion : ContentSuggestion
  llmStrategy : String
  searchVolume : ℤ
  isRealData : Bool
  cost : ℚ
  deriving Repr, DecidableEq

/-- Function `createSimulatedAnalysis` from server.js; `r1 r2` are the rank draws,
`r3` the search-volume draw.  The JS function also receives `teamName` and
never uses it; the parameter is kept for fidelity. -/
def createSimulatedAnalysis (keyword teamName : String) (r1 r2 r3 : ℚ) : Analysis :=
  let _ := teamName
  let competitors := getSimulatedCompetitors keyword
  let teamRank := simulatedTeamRank r1 r2
  { keyword := keyword
    opportunity := calculateOpportunityScore keyword teamRank competitors
    gapType := getGapType keyword competitors
    teamRank := if teamRank = -1 then "Not found" else "#" ++ toString teamRank
    competitors := competitors.take 3
    contentSuggestion := getContentSuggestion keyword
    llmStrategy := getLLMStrategy keyword
    searchVolume := generateSimulatedSearchVolume keyword r3
    isRealData := false
    cost := 0 }

/-! ### External Search Provider Client -/

/-- One ranked result item (`items[i]` in the provider's response): the
domain may be absent or empty (JS falsy). -/
structure SerpItem where
  domain : Option String
  deriving Repr, DecidableEq

/-- Entry `tasks[0].result[0]` in the provider's retrieval response: the item
list may be absent (JS falsy `items`); `cost` may be absent. -/
structure SerpResult where
  items : Option (List SerpItem)
  cost : Option ℚ
  deriving Repr, DecidableEq

/-- One entry of the provider's `tasks` array: a job id (possibly absent
or empty, both JS-falsy) and, on retrieval, an optional result list. -/
structure TaskEntry where
  id : Option String
  result : Option (List SerpResult)
  deriving Repr, DecidableEq

/-- The JSON body of a provider HTTP response. -/
structure ApiResult where
  status_code : ℕ
  tasks : List TaskEntry
  deriving Repr, DecidableEq

/-- The possible outcomes of one outbound HTTP call in
`makeDataForSEORequest`: a network error (fetch rejects), a non-2xx HTTP
status, or a JSON body. -/
inductive HttpOutcome where
  | netError
  | badStatus (status : ℕ)
  | ok (body : ApiResult)
  deriving Repr, DecidableEq

/-- Function `makeDataForSEORequest` from server.js: network errors and non-ok
statuses throw, a body with `status_code ≠ 20000` throws, otherwise the
body is returned.  The thrown JS `Error` becomes `Except.error` with its
message. -/
def makeDataForSEORequest (outcome : HttpOutcome) : Except String ApiResult :=
  match outcome with
  | .netError => .error "DataForSEO API error: network failure"
  | .badStatus status => .error ("DataForSEO API error: " ++ toString status)
  | .ok body =>
    if body.status_code ≠ 20000 then
      .error ("DataForSEO error: (" ++ toString body.status_code ++ ")")
    else
      .ok body

/-- JS truthiness of an optional task id: absent or empty string is falsy. -/
def taskIdTruthy (id : Option String) : Bool :=
  match id with
  | none => false
  | some s => s ≠ ""

/-- Steps 2–3 of `getRealSERPData`: fetch the results for the submitted
task and extract `tasks[0].result[0]`; an error, a missing `result`, or an
empty result array all give `none` (`undefined`/caught exception in JS). -/
def retrieveResult (retrieve : HttpOutcome) : Option SerpResult :=
  match makeDataForSEORequest retrieve with
  | .error _ => none
  | .ok resultsData =>
    match resultsData.tasks.head? with
    | none => none
    | some t =>
      match t.result with
      | none => none
      | some rs => rs.head?

/-- Function `getRealSERPData` from server.js, as a function of the outcomes of its
two HTTP calls (submission, then retrieval).  Every exception is caught and
becomes `none`; the fall-through paths (no accepted task id, no retrieval
result, empty result array) return `undefined`, also `none`. -/
def getRealSERPData (submit retrieve : HttpOutcome) : Option SerpResult :=
  match makeDataForSEORequest submit with
  | .error _ => none
  | .ok taskResult =>
    match taskResult.tasks.head? with
    | none => none
    | some task =>
      if taskIdTruthy task.id then retrieveResult retrieve
      else none

/-! ### Analysis Orchestrator -/

/-- The per-keyword environment: outcomes of the two provider HTTP calls
and the three `Math.random()` draws consumed on that keyword's path. -/
structure KeywordEnv where
  submit : HttpOutcome
  retrieve : HttpOutcome
  r1 : ℚ
  r2 : ℚ
  r3 : ℚ
  deriving Repr

/-- JS truthiness of the filtered domains:
`items.slice(0, 3).map(item => item.domain).filter(Boolean)`. -/
def topCompetitors (items : List SerpItem) : List String :=
  (items.take 3).filterMap (fun item =>
    match item.domain with
    | none => none
    | some d => if d = "" then none else some d)

/-- The guard `item.domain && isTeamSite(item.domain, teamName)` of the
team-rank loop: a JS-truthy domain that the Team-Site Matcher accepts. -/
def itemMatches (teamName : String) (item : SerpItem) : Bool :=
  match item.domain with
  | none => false
  | some d => d ≠ "" && isTeamSite d teamName

/-- The `forEach` team-rank derivation on the real-data path: starting from
`-1`, every item whose truthy domain matches the team overwrites the rank
with its `index + 1`. -/
def deriveTeamRank (items : List SerpItem) (teamName : String) : ℤ :=
  items.enum.foldl
    (fun rank p => if itemMatches teamName p.2 then (p.1 : ℤ) + 1 else rank)
    (-1)

/-- The team rank as claim C1 words it: `index + 1` of the FIRST item whose
domain matches the team via the Team-Site Matcher, else `-1`. -/
def firstMatchRank (items : List SerpItem) (teamName : String) : ℤ :=
  match items.enum.find? (fun p => itemMatches teamName p.2) with
  | none => -1
  | some p => (p.1 : ℤ) + 1

/-- The team rank as the code actually computes it, stated declaratively:
`index + 1` of the LAST item whose domain matches the team via the
Team-Site Matcher, else `-1`. -/
def lastMatchRank (items : List SerpItem) (teamName : String) : ℤ :=
  match items.enum.reverse.find? (fun p => itemMatches teamName p.2) with
  | none => -1
  | some p => (p.1 : ℤ) + 1

/-- The real-data `analysis` object built in the `/api/analyze` loop when
`serpData && serpData.items` holds; `r3` is the draw for the still-simulated
search volume. -/
def realAnalysis (keyword teamName : String) (serp : SerpResult)
    (items : List SerpItem) (r3 : ℚ) : Analysis :=
  let competitors := topCompetitors items
  let teamRank := deriveTeamRank items teamName
  { keyword := keyword
    opportunity := calculateOpportunityScore keyword teamRank competitors
    gapType := getGapType keyword competitors
    teamRank := if teamRank = -1 then "Not found" else "#" ++ toString teamRank
    competitors := competitors.take 3
    contentSuggestion := getContentSuggestion keyword
    llmStrategy := getLLMStrategy keyword
    searchVolume := generateSimulatedSearchVolume keyword r3
    isRealData := true
    cost := serp.cost.getD 0 }

/-- The usable real-path data for one keyword: the SERP result together
with its (JS-truthy) item list, or `none` when the client signalled absence
or the result has no `items` field. -/
def realPathItems (env : KeywordEnv) : Option (SerpResult × List SerpItem) :=
  match getRealSERPData env.submit env.retrieve with
  | none => none
  | some serp =>
    match serp.items with
    | none => none
    | some items => some (serp, items)

/-- One iteration of the `/api/analyze` keyword loop: keyword `i` is
eligible for the real path iff `i < maxRealAnalyses = 3` and both credential
halves are truthy; an eligible keyword with usable provider data yields a
real record, every other case falls back to `createSimulatedAnalysis`. -/
def processKeyword (i : ℕ) (keyword teamName : String) (hasLogin hasPassword : Bool)
    (env : KeywordEnv) : Analysis :=
  if decide (i < 3) && hasLogin && hasPassword then
    match realPathItems env with
    | some (serp, items) => realAnalysis keyword teamName serp items env.r3
    | none => createSimulatedAnalysis keyword teamName env.r1 env.r2 env.r3
  else
    createSimulatedAnalysis keyword teamName env.r1 env.r2 env.r3

/-- The keyword loop itself, carrying the loop index `i`. -/
def processAll (i : ℕ) (keywords : List String) (teamName : String)
    (hasLogin hasPassword : Bool) (envs : ℕ → KeywordEnv) : List Analysis :=
  match keywords with
  | [] => []
  | kw :: rest =>
    processKeyword i kw teamName hasLogin hasPassword (envs i) ::
      processAll (i + 1) rest teamName hasLogin hasPassword envs

/-- The call `analyses.sort((a, b) => b.opportunity - a.opportunity)`: JS `sort` is
stable and the comparator orders by `opportunity` descending, so the sort is
modelled as a stable insertion sort for the relation
`b.opportunity ≤ a.opportunity`. -/
def sortAnalyses (l : List Analysis) : List Analysis :=
  l.insertionSort (fun a b => b.opportunity ≤ a.opportunity)

/-- The `summary` block of the response. -/
structure Summary where
  highOpportunity : ℕ
  totalSearchVolume : ℤ
  realDataCount : ℕ
  deriving Repr, DecidableEq

/-- The success JSON of `POST /api/analyze`. -/
structure AnalyzeResponse where
  success : Bool
  teamName : String
  league : String
  totalKeywords : ℕ
  analyses : List Analysis
  summary : Summary
  deriving Repr

/-- The error JSON of `POST /api/analyze` (400 path). -/
structure ErrorResponse where
  error : String
  deriving Repr, DecidableEq

/-- The body of `POST /api/analyze` after validation has passed: process
the first `min(5, keywords.length)` keywords, sort by opportunity
descending, and compute the summary from the sorted records exactly as the
JS `filter`/`reduce` calls do. -/
def analyzeValid (teamName league : String) (keywords : List String)
    (hasLogin hasPassword : Bool) (envs : ℕ → KeywordEnv) : AnalyzeResponse :=
  let processed := processAll 0 (keywords.take 5) teamName hasLogin hasPassword envs
  let analyses := sortAnalyses processed
  { success := true
    teamName := teamName
    league := league
    totalKeywords := keywords.length
    analyses := analyses
    summary :=
      { highOpportunity := (analyses.filter (fun a => a.opportunity ≥ 7)).length
        totalSearchVolume := analyses.foldl (fun sum a => sum + a.searchVolume) 0
        realDataCount := (analyses.filter (fun a => a.isRealData)).length } }

/-- The `POST /api/analyze` handler: a falsy (empty) team name fails
validation with HTTP 400; the keyword array is present and well-typed by
construction in this model.  `Except.error` is the 400 response. -/
def analyzeHandler (teamName league : String) (keywords : List String)
    (hasLogin hasPassword : Bool) (envs : ℕ → KeywordEnv) :
    Except ErrorResponse AnalyzeResponse :=
  if teamName = "" then
    .error { error := "Missing required fields: teamName and keywords array" }
  else
    .ok (analyzeValid teamName league keywords hasLogin hasPassword envs)

/-! ### Definitions written from the spec's words, for refinement claims -/

/-- Modelled from the spec (§4.3): the rank adjustment table as the claim
words it: +3 for the −1 sentinel, +2 for rank > 10, +1 for ranks 6–10, −1
for rank ≤ 3, 0 for ranks 4–5. -/
def rankAdjustmentSpec (rank : ℤ) : ℤ :=
  if rank = -1 then 3
  else if 10 < rank then 2
  else if 6 ≤ rank ∧ rank ≤ 10 then 1
  else if rank ≤ 3 then -1
  else 0

/-- Modelled from the spec (§4.3): the opportunity score as an additive sum
of independent bonuses plus the rank adjustment, clamped to `[3, 10]`. -/
def opportunityScoreSpec (keyword : String) (rank : ℤ) (competitors : List String) : ℤ :=
  let b1 : ℤ := if strContains keyword "first time" || strContains keyword "what to expect"
    then 3 else 0
  let b2 : ℤ := if strContains keyword "parking" then 2 else 0
  let b3 : ℤ := if strContains keyword "tickets" || strContains keyword "cheap" then 2 else 0
  let b4 : ℤ := if strContains keyword "seating" then 1 else 0
  let b5 : ℤ := if competitors.any (fun comp =>
      ticketResellers.any (fun r => strContains comp r)) then 1 else 0
  min (max (5 + b1 + b2 + b3 + b4 + rankAdjustmentSpec rank + b5) 3) 10

/-- Modelled from the spec (§4.4): the gap-type classifier as the claim
words it, with the reseller check phrased as exact membership in the fixed
three-element set. -/
def gapTypeSpec (keyword : String) (competitors : List String) : String :=
  if strContains keyword "first time" || strContains keyword "what to expect" then
    "First-Timer Experience Gap"
  else if strContains keyword "parking" then
    "Arena Information Gap"
  else if competitors.any (fun comp =>
      comp ∈ ["ticketmaster.com", "stubhub.com", "seatgeek.com"]) then
    "Ticket Reseller Dominance"
  else if strContains keyword "seating" || strContains keyword "arena" then
    "Venue Experience Gap"
  else
    "General Content Gap"

/-- Total and transitive: the sort comparator orders by opportunity
descending. -/
instance : IsTotal Analysis (fun a b => b.opportunity ≤ a.opportunity) :=
  ⟨fun a b => le_total b.opportunity a.opportunity⟩

instance : IsTrans Analysis (fun a b => b.opportunity ≤ a.opportunity) :=
  ⟨fun _ _ _ hab hbc => le_trans hbc hab⟩

/-! ### Theorems -/

set_option maxHeartbeats 1000000 in
/-- C4: for every keyword, integer team rank and competitor list, the
Opportunity Scorer returns the additive sum of the base 5, the four keyword
bonuses, the rank adjustment (+3 for −1, +2 for rank > 10, +1 for 6–10, −1
for rank ≤ 3, 0 for 4–5) and the reseller substring bonus, clamped to
`[3, 10]`. -/
theorem calculateOpportunityScore_eq_spec (keyword : String) (rank : ℤ)
    (competitors : List String) :
    calculateOpportunityScore keyword rank competitors =
      opportunityScoreSpec keyword rank competitors := by
  unfold calculateOpportunityScore opportunityScoreSpec rankAdjustmentSpec
  generalize (strContains keyword "first time" || strContains keyword "what to expect") = c1
  generalize strContains keyword "parking" = c2
  generalize (strContains keyword "tickets" || strContains keyword "cheap") = c3
  generalize strContains keyword "seating" = c4
  generalize (competitors.any fun comp => ticketResellers.any fun r => strContains comp r) = c5
  cases c1 <;> cases c2 <;> cases c3 <;> cases c4 <;> cases c5 <;>
    simp only [Bool.false_eq_true, if_true, if_false, ite_true, ite_false] <;>
    split_ifs <;> omega

/-- C3: the gap-type classifier is exactly the first-match-wins chain of
the spec (with the reseller check an exact-membership test), and in
particular a keyword containing "parking" but neither first-timer phrase
always classifies as "Arena Information Gap", whatever the competitors. -/
theorem getGapType_eq_spec (keyword : String) (competitors : List String) :
    getGapType keyword competitors = gapTypeSpec keyword competitors ∧
    (strContains keyword "parking" = true →
      strContains keyword "first time" = false →
      strContains keyword "what to expect" = false →
      getGapType keyword competitors = "Arena Information Gap") := by
  constructor
  · have hany : (competitors.any fun comp =>
        decide (comp ∈ ["ticketmaster.com", "stubhub.com", "seatgeek.com"])) =
        (competitors.any fun comp =>
          comp = "ticketmaster.com" || comp = "stubhub.com" || comp = "seatgeek.com") := by
      apply congrArg
      funext comp
      simp [List.mem_cons, Bool.or_assoc]
    simp only [getGapType, gapTypeSpec, hany]
  · intro h1 h2 h3
    simp [getGapType, h1, h2, h3]

/-- A `foldl` that overwrites its accumulator at every element satisfying
`p` ends at the image of the last such element: equivalently, of the first
match in the reversed list. -/
theorem foldl_overwrite {α β : Type} (p : α → Bool) (f : α → β) :
    ∀ (l : List α) (acc : β),
      l.foldl (fun r x => if p x then f x else r) acc =
        (match l.reverse.find? p with
         | none => acc
         | some x => f x) := by
  intro l
  induction l with
  | nil => intro acc; rfl
  | cons x xs ih =>
    intro acc
    rw [List.foldl_cons, ih, List.reverse_cons, List.find?_append]
    cases hfind : xs.reverse.find? p with
    | some y => simp [hfind]
    | none =>
      cases hx : p x <;> simp [hfind, List.find?, hx]

/-- The `forEach` team-rank loop computes the rank of the last matching
item. -/
theorem deriveTeamRank_eq_lastMatchRank (items : List SerpItem) (teamName : String) :
    deriveTeamRank items teamName = lastMatchRank items teamName := by
  unfold deriveTeamRank lastMatchRank
  rw [foldl_overwrite (fun p => itemMatches teamName p.2) (fun p => (p.1 : ℤ) + 1)
    items.enum (-1)]
  cases h : List.find? (fun p => itemMatches teamName p.2) items.enum.reverse <;> simp [h]

/-- C1 counterexample: with team "bruins" and result domains
`bruins.com`, `espn.com`, `bruinsblog.com`, items 1 and 3 both match, the
first matching item is at index 0 (rank 1), but the code derives rank 3 —
the claim's "FIRST result item" reading is false on this input. -/
theorem deriveTeamRank_not_firstMatch :
    deriveTeamRank [⟨some "bruins.com"⟩, ⟨some "espn.com"⟩, ⟨some "bruinsblog.com"⟩]
        "bruins" = 3 ∧
    firstMatchRank [⟨some "bruins.com"⟩, ⟨some "espn.com"⟩, ⟨some "bruinsblog.com"⟩]
        "bruins" = 1 ∧
    deriveTeamRank [⟨some "bruins.com"⟩, ⟨some "espn.com"⟩, ⟨some "bruinsblog.com"⟩]
        "bruins" ≠
      firstMatchRank [⟨some "bruins.com"⟩, ⟨some "espn.com"⟩, ⟨some "bruinsblog.com"⟩]
        "bruins" := by
  refine ⟨by decide, by decide, by decide⟩

/-- C1 amended: on the real-data path the record's team rank is the
1-based position of the LAST result item whose domain matches the team via
the Team-Site Matcher (−1, rendered "Not found", if none matches). -/
theorem realAnalysis_teamRank_lastMatch (keyword teamName : String) (serp : SerpResult)
    (items : List SerpItem) (r3 : ℚ) :
    (realAnalysis keyword teamName serp items r3).teamRank =
      (if lastMatchRank items teamName = -1 then "Not found"
       else "#" ++ toString (lastMatchRank items teamName)) ∧
    deriveTeamRank items teamName = lastMatchRank items teamName := by
  refine ⟨?_, deriveTeamRank_eq_lastMatchRank items teamName⟩
  show (if deriveTeamRank items teamName = -1 then "Not found"
    else "#" ++ toString (deriveTeamRank items teamName)) = _
  rw [deriveTeamRank_eq_lastMatchRank]

/-- The set of first draws in `[0,1)` on which the synthetic team rank is
the −1 sentinel is exactly the interval `(0.6, 1)`. -/
theorem simulatedTeamRank_notFound_set :
    {r : ℝ | r ∈ Set.Ico (0:ℝ) 1 ∧ simulatedTeamRank r (0:ℝ) = -1} =
      Set.Ioo ((6:ℝ)/10) 1 := by
  ext r
  simp only [Set.mem_setOf_eq, Set.mem_Ico, Set.mem_Ioo, simulatedTeamRank]
  constructor
  · rintro ⟨⟨h0, h1⟩, heq⟩
    by_cases h : (6:ℝ)/10 < r
    · exact ⟨h, h1⟩
    · rw [if_neg h] at heq
      norm_num at heq
  · rintro ⟨h6, h1⟩
    refine ⟨⟨by linarith, h1⟩, ?_⟩
    rw [if_pos h6]

/-- C2 counterexample: the set of uniform draws in `[0,1)` that yield the
−1 sentinel has Lebesgue measure 0.4, not 0.6 — the JS condition is
`Math.random() > 0.6`, so −1 occurs on `(0.6, 1)`. -/
theorem simulatedTeamRank_notFound_measure :
    MeasureTheory.volume {r : ℝ | r ∈ Set.Ico (0:ℝ) 1 ∧ simulatedTeamRank r (0:ℝ) = -1} =
      ENNReal.ofReal ((4:ℝ)/10) ∧
    MeasureTheory.volume {r : ℝ | r ∈ Set.Ico (0:ℝ) 1 ∧ simulatedTeamRank r (0:ℝ) = -1} ≠
      ENNReal.ofReal ((6:ℝ)/10) := by
  have h : MeasureTheory.volume
      {r : ℝ | r ∈ Set.Ico (0:ℝ) 1 ∧ simulatedTeamRank r (0:ℝ) = -1} =
      ENNReal.ofReal ((4:ℝ)/10) := by
    rw [simulatedTeamRank_notFound_set, Real.volume_Ioo]
    norm_num
  refine ⟨h, ?_⟩
  rw [h]
  rw [Ne, ENNReal.ofReal_eq_ofReal_iff (by norm_num) (by norm_num)]
  norm_num

/-- C2 amended: the −1 sentinel occurs on a set of draws of measure 0.4
(the draws in `(0.6, 1)`); otherwise the rank is a uniformly distributed
integer in `[1, 10]`: it always lies in that range, and each value is hit
on a set of second draws of measure exactly 1/10. -/
theorem simulatedTeamRank_distribution :
    MeasureTheory.volume {r : ℝ | r ∈ Set.Ico (0:ℝ) 1 ∧ simulatedTeamRank r (0:ℝ) = -1} =
      ENNReal.ofReal ((4:ℝ)/10) ∧
    (∀ r1 r2 : ℝ, r1 ∈ Set.Ico (0:ℝ) 1 → r2 ∈ Set.Ico (0:ℝ) 1 → ¬((6:ℝ)/10 < r1) →
      1 ≤ simulatedTeamRank r1 r2 ∧ simulatedTeamRank r1 r2 ≤ 10) ∧
    (∀ k : ℤ, 1 ≤ k → k ≤ 10 →
      MeasureTheory.volume {r : ℝ | r ∈ Set.Ico (0:ℝ) 1 ∧ simulatedTeamRank (0:ℝ) r = k} =
        ENNReal.ofReal ((1:ℝ)/10)) := by
  refine ⟨?_, ?_, ?_⟩
  · rw [simulatedTeamRank_notFound_set, Real.volume_Ioo]
    norm_num
  · rintro r1 r2 ⟨h0, h1⟩ ⟨h0', h1'⟩ hno
    unfold simulatedTeamRank
    rw [if_neg hno]
    have hf0 : (0:ℤ) ≤ ⌊r2 * 10⌋ := by
      apply Int.floor_nonneg.mpr
      nlinarith
    have hf9 : ⌊r2 * 10⌋ ≤ 9 := by
      have h' : ⌊r2 * 10⌋ < 10 := Int.floor_lt.mpr (by push_cast; nlinarith)
      omega
    omega
  · intro k hk1 hk10
    have hset : {r : ℝ | r ∈ Set.Ico (0:ℝ) 1 ∧ simulatedTeamRank (0:ℝ) r = k} =
        Set.Ico (((k:ℝ) - 1)/10) ((k:ℝ)/10) := by
      ext r
      simp only [Set.mem_setOf_eq, Set.mem_Ico, simulatedTeamRank]
      rw [if_neg (by norm_num : ¬((6:ℝ)/10 < 0))]
      constructor
      · rintro ⟨⟨h0, h1⟩, heq⟩
        have hfl : ⌊r * 10⌋ = k - 1 := by omega
        have := Int.floor_eq_iff.mp hfl
        obtain ⟨hlo, hhi⟩ := this
        push_cast at hlo hhi
        constructor <;> linarith
      · rintro ⟨hlo, hhi⟩
        have hk1R : (1:ℝ) ≤ (k:ℝ) := by exact_mod_cast hk1
        have hk10R : (k:ℝ) ≤ 10 := by exact_mod_cast hk10
        have h0 : (0:ℝ) ≤ r := by
          have : (0:ℝ) ≤ ((k:ℝ) - 1)/10 := by linarith
          linarith
        have h1 : r < 1 := by
          have : (k:ℝ)/10 ≤ 1 := by linarith
          linarith
        have hfl : ⌊r * 10⌋ = k - 1 := by
          apply Int.floor_eq_iff.mpr
          constructor
          · push_cast
            linarith
          · push_cast
            linarith
        refine ⟨⟨h0, h1⟩, by omega⟩
    rw [hset, Real.volume_Ico]
    congr 1
    ring

/-- C3 witness: a keyword containing "parking" together with a reseller
competitor still classifies as "Arena Information Gap". -/
theorem getGapType_eq_spec_witness :
    getGapType "bruins parking" ["ticketmaster.com"] = "Arena Information Gap" :=
  (getGapType_eq_spec "bruins parking" ["ticketmaster.com"]).2
    (by decide) (by decide) (by decide)

/-- C2 witness: instantiating the distribution theorem at concrete draws
`r1 = 0`, `r2 = 1/2` and at rank value `k = 3`. -/
theorem simulatedTeamRank_distribution_witness :
    (1 ≤ simulatedTeamRank (0:ℝ) ((1:ℝ)/2) ∧ simulatedTeamRank (0:ℝ) ((1:ℝ)/2) ≤ 10) ∧
    MeasureTheory.volume {r : ℝ | r ∈ Set.Ico (0:ℝ) 1 ∧ simulatedTeamRank (0:ℝ) r = 3} =
      ENNReal.ofReal ((1:ℝ)/10) :=
  ⟨simulatedTeamRank_distribution.2.1 0 (1/2)
      (by constructor <;> norm_num) (by constructor <;> norm_num) (by norm_num),
    simulatedTeamRank_distribution.2.2 3 (by norm_num) (by norm_num)⟩

/-- C10: if splitting the lowercased team name on single spaces yields an
empty word (leading, trailing or doubled space), then every non-empty
domain is classified as team-owned, because every string contains the empty
string; the empty (absent) domain is still a non-match. -/
theorem isTeamSite_empty_word (teamName : String)
    (h : "" ∈ jsSplitOnSpace (jsToLower teamName)) :
    (∀ domain : String, domain ≠ "" → isTeamSite domain teamName = true) ∧
    isTeamSite "" teamName = false := by
  constructor
  · intro domain hd
    unfold isTeamSite
    rw [if_neg hd]
    apply List.any_eq_true.mpr
    refine ⟨"", h, ?_⟩
    unfold strContains
    exact decide_eq_true (show ("".data <:+: (jsToLower domain).data) from List.nil_infix)
  · unfold isTeamSite
    rw [if_pos rfl]

/-- C10 witness: the doubled space in "Boston  Bruins" yields an empty
team word, so the unrelated domain `espn.com` is classified as team-owned
while the empty domain is not. -/
theorem isTeamSite_empty_word_witness :
    ("" ∈ jsSplitOnSpace (jsToLower "Boston  Bruins")) ∧
    isTeamSite "espn.com" "Boston  Bruins" = true ∧
    isTeamSite "" "Boston  Bruins" = false :=
  ⟨by decide,
    (isTeamSite_empty_word "Boston  Bruins" (by decide)).1 "espn.com" (by decide),
    (isTeamSite_empty_word "Boston  Bruins" (by decide)).2⟩

/-- C5: the provider client converts every failure mode — network error,
non-success HTTP status, provider error `status_code`, rejected job (no or
falsy task id), missing or empty retrieval — into the absent-result signal
`none` instead of raising; and whenever the real path yields no usable data
for a keyword, the orchestrator's record for that keyword is exactly the
complete simulated record, with `isRealData = false` and `cost = 0`. -/
theorem providerClient_degrades_and_fallback_complete :
    (∀ g, getRealSERPData .netError g = none) ∧
    (∀ s g, getRealSERPData (.badStatus s) g = none) ∧
    (∀ body g, body.status_code ≠ 20000 → getRealSERPData (.ok body) g = none) ∧
    (∀ body g, body.status_code = 20000 → body.tasks = [] →
      getRealSERPData (.ok body) g = none) ∧
    (∀ body t ts g, body.status_code = 20000 → body.tasks = t :: ts →
      taskIdTruthy t.id = false → getRealSERPData (.ok body) g = none) ∧
    (∀ s, getRealSERPData s .netError = none) ∧
    (∀ s c, getRealSERPData s (.badStatus c) = none) ∧
    (∀ s body2, body2.status_code ≠ 20000 → getRealSERPData s (.ok body2) = none) ∧
    (∀ s body2, body2.status_code = 20000 → body2.tasks = [] →
      getRealSERPData s (.ok body2) = none) ∧
    (∀ s body2 t ts, body2.status_code = 20000 → body2.tasks = t :: ts →
      (t.result = none ∨ t.result = some []) → getRealSERPData s (.ok body2) = none) ∧
    (∀ i keyword teamName hasLogin hasPassword env,
      realPathItems env = none →
      processKeyword i keyword teamName hasLogin hasPassword env =
        createSimulatedAnalysis keyword teamName env.r1 env.r2 env.r3 ∧
      (processKeyword i keyword teamName hasLogin hasPassword env).isRealData = false ∧
      (processKeyword i keyword teamName hasLogin hasPassword env).cost = 0) := by
  have hretr : ∀ s g, retrieveResult g = none → getRealSERPData s g = none := by
    intro s g h
    unfold getRealSERPData
    rcases hm : makeDataForSEORequest s with e | taskResult
    · rfl
    · simp only [hm]
      rcases ht : taskResult.tasks.head? with _ | task
      · simp only [ht]
      · simp only [ht]
        cases hid : taskIdTruthy task.id
        · simp
        · simpa using h
  refine ⟨fun g => rfl, fun s g => rfl, ?_, ?_, ?_, ?_, ?_, ?_, ?_, ?_, ?_⟩
  · intro body g h
    simp [getRealSERPData, makeDataForSEORequest, h]
  · intro body g hsc htasks
    simp [getRealSERPData, makeDataForSEORequest, hsc, htasks]
  · intro body t ts g hsc htasks hid
    simp [getRealSERPData, makeDataForSEORequest, hsc, htasks, hid]
  · intro s
    exact hretr s _ rfl
  · intro s c
    exact hretr s _ rfl
  · intro s body2 h
    exact hretr s _ (by simp [retrieveResult, makeDataForSEORequest, h])
  · intro s body2 hsc htasks
    exact hretr s _ (by simp [retrieveResult, makeDataForSEORequest, hsc, htasks])
  · intro s body2 t ts hsc htasks hres
    refine hretr s _ ?_
    rcases hres with hres | hres <;>
      simp [retrieveResult, makeDataForSEORequest, hsc, htasks, hres]
  · intro i keyword teamName hasLogin hasPassword env habs
    have hmain : processKeyword i keyword teamName hasLogin hasPassword env =
        createSimulatedAnalysis keyword teamName env.r1 env.r2 env.r3 := by
      unfold processKeyword
      split
      · rw [habs]
      · rfl
    refine ⟨hmain, by rw [hmain]; rfl, by rw [hmain]; rfl⟩

/-- C5 witness: a network error on submission during an eligible keyword
produces exactly the complete simulated record with `isRealData = false`
and `cost = 0`. -/
theorem providerClient_degrades_witness :
    realPathItems ⟨.netError, .netError, 0, 0, 0⟩ = none ∧
    processKeyword 0 "bruins tickets" "Boston Bruins" true true
        ⟨.netError, .netError, 0, 0, 0⟩ =
      createSimulatedAnalysis "bruins tickets" "Boston Bruins" 0 0 0 ∧
    (processKeyword 0 "bruins tickets" "Boston Bruins" true true
        ⟨.netError, .netError, 0, 0, 0⟩).isRealData = false ∧
    (processKeyword 0 "bruins tickets" "Boston Bruins" true true
        ⟨.netError, .netError, 0, 0, 0⟩).cost = 0 := by
  have h := (providerClient_degrades_and_fallback_complete).2.2.2.2.2.2.2.2.2.2
    0 "bruins tickets" "Boston Bruins" true true ⟨.netError, .netError, 0, 0, 0⟩ rfl
  exact ⟨rfl, h.1, h.2.1, h.2.2⟩

/-! ### Sorting and counting infrastructure -/

theorem sortAnalyses_perm (l : List Analysis) : (sortAnalyses l).Perm l :=
  List.perm_insertionSort _ l

theorem sortAnalyses_sorted (l : List Analysis) :
    List.Sorted (fun a b => b.opportunity ≤ a.opportunity) (sortAnalyses l) :=
  List.sorted_insertionSort _ l

/-- Inserting `a` into `l` walks past exactly the elements with strictly
larger opportunity, so filtering by any fixed opportunity value commutes
with the insertion (the stability kernel). -/
theorem filter_orderedInsert (v : ℤ) (a : Analysis) (l : List Analysis) :
    (List.orderedInsert (fun x y => y.opportunity ≤ x.opportunity) a l).filter
        (fun x => x.opportunity = v) =
      if a.opportunity = v then a :: l.filter (fun x => x.opportunity = v)
      else l.filter (fun x => x.opportunity = v) := by
  induction l with
  | nil =>
    by_cases pa : a.opportunity = v <;> simp [List.orderedInsert, List.filter, pa]
  | cons b bs ih =>
    by_cases hr : b.opportunity ≤ a.opportunity
    · rw [List.orderedInsert, if_pos hr]
      by_cases pa : a.opportunity = v <;> simp [List.filter_cons, pa]
    · rw [List.orderedInsert, if_neg hr, List.filter_cons]
      by_cases pa : a.opportunity = v
      · have pb : ¬(b.opportunity = v) := by
          intro hb
          exact hr (by rw [hb, pa])
        simp [pa, pb, ih, List.filter_cons]
      · by_cases pb : b.opportunity = v <;> simp [pa, pb, ih, List.filter_cons]

/-- Stability of the opportunity sort: the subsequence of records with any
fixed opportunity value is unchanged by sorting. -/
theorem sortAnalyses_filter_eq (v : ℤ) (l : List Analysis) :
    (sortAnalyses l).filter (fun a => a.opportunity = v) =
      l.filter (fun a => a.opportunity = v) := by
  unfold sortAnalyses
  induction l with
  | nil => rfl
  | cons x xs ih =>
    rw [List.insertionSort, filter_orderedInsert]
    by_cases px : x.opportunity = v <;> simp [px, ih, List.filter_cons]

theorem createSimulatedAnalysis_isRealData (keyword teamName : String) (r1 r2 r3 : ℚ) :
    (createSimulatedAnalysis keyword teamName r1 r2 r3).isRealData = false := rfl

/-- A real record can only come from an eligible keyword: index below 3
with both credential halves present. -/
theorem processKeyword_isRealData {i : ℕ} {keyword teamName : String}
    {hasLogin hasPassword : Bool} {env : KeywordEnv}
    (h : (processKeyword i keyword teamName hasLogin hasPassword env).isRealData = true) :
    i < 3 ∧ hasLogin = true ∧ hasPassword = true := by
  by_cases hcond : (decide (i < 3) && hasLogin && hasPassword) = true
  · have h' := hcond
    simp only [Bool.and_eq_true, decide_eq_true_eq] at h'
    exact ⟨h'.1.1, h'.1.2, h'.2⟩
  · exfalso
    unfold processKeyword at h
    rw [if_neg hcond, createSimulatedAnalysis_isRealData] at h
    exact Bool.false_ne_true h

theorem processAll_length (keywords : List String) : ∀ (i : ℕ) (teamName : String)
    (hasLogin hasPassword : Bool) (envs : ℕ → KeywordEnv),
    (processAll i keywords teamName hasLogin hasPassword envs).length = keywords.length := by
  induction keywords with
  | nil => intro i tn hL hP envs; rfl
  | cons kw rest ih =>
    intro i tn hL hP envs
    unfold processAll
    rw [List.length_cons, ih]
    rfl

/-- At most `3 - i` real records can come out of the loop starting at
index `i`. -/
theorem processAll_realCount_le (keywords : List String) : ∀ (i : ℕ) (teamName : String)
    (hasLogin hasPassword : Bool) (envs : ℕ → KeywordEnv),
    ((processAll i keywords teamName hasLogin hasPassword envs).filter
      (fun a => a.isRealData)).length ≤ 3 - i := by
  induction keywords with
  | nil => intro i tn hL hP envs; simp [processAll]
  | cons kw rest ih =>
    intro i tn hL hP envs
    unfold processAll
    rw [List.filter_cons]
    cases hreal : (processKeyword i kw tn hL hP (envs i)).isRealData
    · have hrest := ih (i + 1) tn hL hP envs
      simp only [Bool.false_eq_true, if_neg, ite_false]
      omega
    · have hi3 : i < 3 := (processKeyword_isRealData hreal).1
      have hrest := ih (i + 1) tn hL hP envs
      simp only [ite_true, List.length_cons]
      omega

/-- With either credential half missing, the loop produces no real record
at all. -/
theorem processAll_noCreds (keywords : List String) : ∀ (i : ℕ) (teamName : String)
    (hasLogin hasPassword : Bool) (envs : ℕ → KeywordEnv),
    (hasLogin = false ∨ hasPassword = false) →
    ((processAll i keywords teamName hasLogin hasPassword envs).filter
      (fun a => a.isRealData)).length = 0 := by
  induction keywords with
  | nil => intro i tn hL hP envs hcred; rfl
  | cons kw rest ih =>
    intro i tn hL hP envs hcred
    unfold processAll
    rw [List.filter_cons]
    cases hreal : (processKeyword i kw tn hL hP (envs i)).isRealData
    · simpa using ih (i + 1) tn hL hP envs hcred
    · exfalso
      have := (processKeyword_isRealData hreal).2
      rcases hcred with hcred | hcred <;> rw [hcred] at this <;>
        simp at this

theorem foldl_add_eq_sum (l : List Analysis) : ∀ init : ℤ,
    l.foldl (fun s a => s + a.searchVolume) init =
      init + (l.map (fun a => a.searchVolume)).sum := by
  induction l with
  | nil => intro init; simp
  | cons a rest ih =>
    intro init
    rw [List.foldl_cons, ih, List.map_cons, List.sum_cons]
    ring

/-- C6: at most 3 records of any response are real, regardless of how many
keywords were submitted; and with either credential half missing (falsy),
no record at all is real. -/
theorem realData_cap (teamName league : String) (keywords : List String)
    (hasLogin hasPassword : Bool) (envs : ℕ → KeywordEnv) :
    ((analyzeValid teamName league keywords hasLogin hasPassword envs).analyses.filter
      (fun a => a.isRealData)).length ≤ 3 ∧
    ((hasLogin = false ∨ hasPassword = false) →
      ((analyzeValid teamName league keywords hasLogin hasPassword envs).analyses.filter
        (fun a => a.isRealData)).length = 0) := by
  have hlen : ((analyzeValid teamName league keywords hasLogin hasPassword envs).analyses.filter
      (fun a => a.isRealData)).length =
      ((processAll 0 (keywords.take 5) teamName hasLogin hasPassword envs).filter
        (fun a => a.isRealData)).length :=
    ((sortAnalyses_perm (processAll 0 (keywords.take 5) teamName hasLogin hasPassword envs)).filter
      (fun a => a.isRealData)).length_eq
  constructor
  · rw [hlen]
    simpa using processAll_realCount_le (keywords.take 5) 0 teamName hasLogin hasPassword envs
  · intro hcred
    rw [hlen]
    exact processAll_noCreds (keywords.take 5) 0 teamName hasLogin hasPassword envs hcred

/-- C6 witness: with a missing login credential, a concrete request yields
zero real records. -/
theorem realData_cap_witness :
    ((false = false ∨ (true : Bool) = false) : Prop) ∧
    ((analyzeValid "Boston Bruins" "NHL" ["bruins tickets"] false true
      (fun _ => ⟨.netError, .netError, 0, 0, 0⟩)).analyses.filter
        (fun a => a.isRealData)).length = 0 :=
  ⟨Or.inl rfl,
    (realData_cap "Boston Bruins" "NHL" ["bruins tickets"] false true
      (fun _ => ⟨.netError, .netError, 0, 0, 0⟩)).2 (Or.inl rfl)⟩

/-- C7: every response's record list is sorted by opportunity descending,
and the sort is stable: for every opportunity value, the records carrying
it appear in exactly their original keyword-processing order (the order of
the pre-sort loop output). -/
theorem analyses_sorted_and_stable (teamName league : String) (keywords : List String)
    (hasLogin hasPassword : Bool) (envs : ℕ → KeywordEnv) :
    List.Sorted (fun a b => b.opportunity ≤ a.opportunity)
      (analyzeValid teamName league keywords hasLogin hasPassword envs).analyses ∧
    (∀ v : ℤ,
      (analyzeValid teamName league keywords hasLogin hasPassword envs).analyses.filter
        (fun a => a.opportunity = v) =
      (processAll 0 (keywords.take 5) teamName hasLogin hasPassword envs).filter
        (fun a => a.opportunity = v)) :=
  ⟨sortAnalyses_sorted _, fun v => sortAnalyses_filter_eq v _⟩

/-- C8: every response's summary is computed exactly from its final record
set: total search volume is the sum over the records, high-opportunity is
the count with opportunity ≥ 7, and the real-data count is the count with
`isRealData = true`. -/
theorem summary_matches_records (teamName league : String) (keywords : List String)
    (hasLogin hasPassword : Bool) (envs : ℕ → KeywordEnv) :
    (analyzeValid teamName league keywords hasLogin hasPassword envs).summary.totalSearchVolume =
      ((analyzeValid teamName league keywords hasLogin hasPassword envs).analyses.map
        (fun a => a.searchVolume)).sum ∧
    (analyzeValid teamName league keywords hasLogin hasPassword envs).summary.highOpportunity =
      ((analyzeValid teamName league keywords hasLogin hasPassword envs).analyses.filter
        (fun a => a.opportunity ≥ 7)).length ∧
    (analyzeValid teamName league keywords hasLogin hasPassword envs).summary.realDataCount =
      ((analyzeValid teamName league keywords hasLogin hasPassword envs).analyses.filter
        (fun a => a.isRealData)).length := by
  refine ⟨?_, rfl, rfl⟩
  show (sortAnalyses (processAll 0 (keywords.take 5) teamName hasLogin hasPassword envs)).foldl
    (fun sum a => sum + a.searchVolume) 0 = _
  rw [foldl_add_eq_sum, zero_add]
  rfl

/-- C9: for every request that passes validation (non-empty team name; the
keyword list is well-typed by construction), the handler succeeds, the
response carries exactly `min 5 keywords.length` records, and
`totalKeywords` echoes the full submitted count. -/
theorem response_shape (teamName league : String) (keywords : List String)
    (hasLogin hasPassword : Bool) (envs : ℕ → KeywordEnv) (h : teamName ≠ "") :
    analyzeHandler teamName league keywords hasLogin hasPassword envs =
      Except.ok (analyzeValid teamName league keywords hasLogin hasPassword envs) ∧
    (analyzeValid teamName league keywords hasLogin hasPassword envs).analyses.length =
      min 5 keywords.length ∧
    (analyzeValid teamName league keywords hasLogin hasPassword envs).totalKeywords =
      keywords.length := by
  refine ⟨?_, ?_, rfl⟩
  · unfold analyzeHandler
    rw [if_neg h]
  · show (sortAnalyses (processAll 0 (keywords.take 5) teamName hasLogin hasPassword envs)).length = _
    rw [(sortAnalyses_perm _).length_eq, processAll_length, List.length_take]

/-- C9 witness: a concrete two-keyword request with a non-empty team name
yields exactly two records. -/
theorem response_shape_witness :
    ("Boston Bruins" : String) ≠ "" ∧
    (analyzeValid "Boston Bruins" "NHL" ["bruins tickets", "bruins parking"] false false
      (fun _ => ⟨.netError, .netError, 0, 0, 0⟩)).analyses.length = 2 :=
  ⟨by decide, by
    have h := (response_shape "Boston Bruins" "NHL" ["bruins tickets", "bruins parking"]
      false false (fun _ => ⟨.netError, .netError, 0, 0, 0⟩) (by decide)).2.1
    simpa using h⟩

end HockeySeo
